import Mathlib

/-!
Verification development for the docs-agent-v3 repository.

This file gives a shallow embedding, in Lean 4, of the core algorithms of the
repository:

* `doc_agents/subagent_coordinator.py` — the bounded-concurrency task
  coordinator (`SubagentCoordinator.run_task` / `run_parallel` and the
  semaphore discipline);
* `doc_agents/file_analyzer.py` — the local heuristic analyzer
  (`analyze_file_locally`), including the per-language regex extraction;
* `doc_agents/module_analyzer.py` — module grouping (`identify_modules`) and
  dependency-edge construction (`build_dependency_graph`);
* `doc_agents/orchestrator.py` — the six-phase pipeline
  (`DocumentationOrchestrator.run`).

Python string primitives (`split`, `strip`, `in`, `endswith`, `replace`,
`os.path.dirname`, `os.path.basename`, `os.path.splitext`) are embedded as
structurally recursive functions over `List Char`, so every definition is
executable by the kernel.  Regexes used by the source are anchored,
character-class based patterns; they are embedded as deterministic scanners
that reproduce the semantics of the corresponding Python pattern (including
greedy maximal-munch and the observable backtracking behaviour, which for
these patterns is decidable by a bounded look-back, as noted at each scanner).
The `re.MULTILINE`-anchored Python patterns match only at line starts, so they
are embedded as per-line scanners; patterns whose character classes could in
principle span a newline (e.g. a class header split across lines) are embedded
line-locally, which agrees with the source on all single-line declarations.
-/

/-! ## Python string primitives over `List Char` -/

/-- Whitespace class of Python's `str.strip` / regex `\s` (ASCII part). -/
def pyIsSpaceChar (c : Char) : Bool :=
  c = ' ' || c = '\t' || c = '\n' || c = '\r' || c = Char.ofNat 11 || c = Char.ofNat 12

/-- Word-character class of the regex `\w` (ASCII part: letters, digits, `_`). -/
def pyIsWordChar (c : Char) : Bool :=
  c.isAlphanum || c = '_'

/-- Match a literal character sequence, returning the remainder on success. -/
def matchLit : List Char → List Char → Option (List Char)
  | [], s => some s
  | _ :: _, [] => none
  | p :: ps, c :: cs => if c = p then matchLit ps cs else none

/-- Longest prefix satisfying `p`, plus the remainder (regex maximal munch). -/
def spanP (p : Char → Bool) : List Char → List Char × List Char
  | [] => ([], [])
  | c :: cs =>
    if p c then
      let r := spanP p cs
      (c :: r.1, r.2)
    else ([], c :: cs)

/-- Python `needle in hay` on character lists. -/
def containsChars (needle : List Char) : List Char → Bool
  | [] => needle.isEmpty
  | c :: cs => (matchLit needle (c :: cs)).isSome || containsChars needle cs

/-- Python `hay.endswith(post)` on character lists. -/
def endsWithChars (s post : List Char) : Bool :=
  (matchLit post.reverse s.reverse).isSome

/-- Python `s.split(sep)` for a one-character separator (never drops pieces). -/
def splitOnChar (sep : Char) : List Char → List (List Char)
  | [] => [[]]
  | c :: cs =>
    match splitOnChar sep cs with
    | [] => [[]]
    | g :: gs => if c = sep then [] :: g :: gs else (c :: g) :: gs

/-- Python `s.strip()`: drop leading and trailing whitespace. -/
def stripChars (s : List Char) : List Char :=
  ((s.dropWhile pyIsSpaceChar).reverse.dropWhile pyIsSpaceChar).reverse

/-- String-level wrappers. -/
def pyContains (hay needle : String) : Bool :=
  containsChars needle.data hay.data

def pyEndsWith (s post : String) : Bool :=
  endsWithChars s.data post.data

def pyStartsWith (s pre : String) : Bool :=
  (matchLit pre.data s.data).isSome

def pyStrip (s : String) : String :=
  String.mk (stripChars s.data)

def pySplit (sep : Char) (s : String) : List String :=
  (splitOnChar sep s.data).map String.mk

/-- Python `content.split(chr(10))`: the line list used by `analyze_file_locally`. -/
def pySplitLines (s : String) : List String :=
  pySplit '\n' s

/-- Python `s.replace(a, b)` for one-character arguments. -/
def pyReplaceChar (a b : Char) (s : String) : String :=
  String.mk (s.data.map fun c => if c = a then b else c)

/-- Python `s.lower()` (ASCII). -/
def pyLower (s : String) : String :=
  String.mk (s.data.map Char.toLower)

/-- `os.path.basename`: the part after the last slash. -/
def pyBasename (p : String) : String :=
  String.mk ((p.data.reverse.takeWhile fun c => c ≠ '/').reverse)

/-- `os.path.dirname` (posix): everything before the last slash, with trailing
slashes stripped unless the head is all slashes. -/
def pyDirname (p : String) : String :=
  let l := p.data
  if l.contains '/' then
    let headRev := l.reverse.dropWhile fun c => c ≠ '/'
    if headRev.all fun c => c = '/' then String.mk headRev.reverse
    else String.mk ((headRev.dropWhile fun c => c = '/').reverse)
  else ""

/-- Helper for `os.path.splitext`: given the basename, the stem before the last
dot, provided some non-dot character precedes that dot (CPython semantics:
leading dots of the basename do not start an extension). -/
def splitextStem (bn : List Char) : Option (List Char) :=
  let revExt := bn.reverse.takeWhile fun c => c ≠ '.'
  if revExt.length = bn.length then none
  else
    let stem := (bn.reverse.drop (revExt.length + 1)).reverse
    if stem.any fun c => c ≠ '.' then some stem else none

/-- `os.path.splitext(p)[0]`. -/
def pySplitextBase (p : String) : String :=
  let l := p.data
  let bn := (l.reverse.takeWhile fun c => c ≠ '/').reverse
  match splitextStem bn with
  | some stem => String.mk (l.take (l.length - bn.length) ++ stem)
  | none => p

/-! ## Data model (`models/handoff.py`) -/

/-- `ImportInfo` from `models/handoff.py`. -/
structure ImportInfo where
  module : String
  names : List String
  is_relative : Bool
  is_external : Bool
  deriving DecidableEq, Repr

/-- `FunctionInfo` from `models/handoff.py` (fields the analyzer populates;
`docstring` and `calls` keep their model defaults and are omitted). -/
structure FunctionInfo where
  name : String
  line_number : Nat
  parameters : List String
  return_type : Option String
  description : String
  complexity : String
  deriving DecidableEq, Repr

/-- `ClassInfo` from `models/handoff.py`. -/
structure ClassInfo where
  name : String
  line_number : Nat
  base_classes : List String
  description : String
  methods : List FunctionInfo
  attributes : List String
  deriving DecidableEq, Repr

/-- `FileAnalysisHandoff` from `models/handoff.py`. -/
structure FileAnalysisHandoff where
  path : String
  language : String
  purpose : String
  imports : List ImportInfo
  exports : List String
  classes : List ClassInfo
  functions : List FunctionInfo
  constants : List String
  key_insights : List String
  dependencies : List String
  complexity_score : Nat
  raw_summary : String
  deriving DecidableEq, Repr

/-- `ModuleInfo` from `models/handoff.py`. -/
structure ModuleInfo where
  name : String
  path : String
  files : List String
  purpose : String
  public_api : List String
  internal_components : List String
  deriving DecidableEq, Repr

/-- `DependencyEdge` from `models/handoff.py`. -/
structure DependencyEdge where
  source : String
  target : String
  relationship_type : String
  strength : String
  deriving DecidableEq, Repr

/-! ## `analyze_file_locally` (doc_agents/file_analyzer.py)

Each Python regex of the source is embedded as a deterministic scanner.  The
patterns are anchored (`re.MULTILINE` with a leading caret), so they match only
at line starts; consequently the `indent == 0` check in the source is always
true for matched functions, and per-line scanning reproduces `finditer`.  For
each pattern, greedy maximal-munch plus the noted backtracking analysis gives
a deterministic parse. -/

/-- Scanner for `^import\s+(\S+)` applied per line (`re.match`). -/
def pyImportMatch (line : String) : Option ImportInfo :=
  match matchLit ("import").data line.data with
  | none => none
  | some rest =>
    match spanP pyIsSpaceChar rest with
    | ([], _) => none
    | (_ :: _, rest2) =>
      match spanP (fun c => !pyIsSpaceChar c) rest2 with
      | ([], _) => none
      | (tok, _) =>
        some { module := String.mk tok, names := [],
               is_relative := false,
               is_external := !(tok.contains '.') }

/-- Scanner for `^from\s+(\S+)\s+import\s+(.+)` applied per line (`re.match`).
Note the source keeps empty name entries (the comprehension has no filter). -/
def pyFromImportMatch (line : String) : Option ImportInfo :=
  match matchLit ("from").data line.data with
  | none => none
  | some r1 =>
    match spanP pyIsSpaceChar r1 with
    | ([], _) => none
    | (_ :: _, r2) =>
      match spanP (fun c => !pyIsSpaceChar c) r2 with
      | ([], _) => none
      | (tok, r3) =>
        match spanP pyIsSpaceChar r3 with
        | ([], _) => none
        | (_ :: _, r4) =>
          match matchLit ("import").data r4 with
          | none => none
          | some r5 =>
            match spanP pyIsSpaceChar r5 with
            | ([], _) => none
            | (_ :: _, r6) =>
              match r6 with
              | [] => none
              | _ :: _ =>
                let module := String.mk tok
                let names := (splitOnChar ',' r6).map fun n => pyStrip (String.mk n)
                some { module, names,
                       is_relative := pyStartsWith module ("."),
                       is_external := !pyStartsWith module (".") }

/-- Scanner for `^class\s+(\w+)\s*(?:\(([^)]*)\))?\s*:` on one line, returning
the class name and its stripped, non-empty base-class names. -/
def pyClassLineMatch (line : String) : Option (String × List String) :=
  match matchLit ("class").data line.data with
  | none => none
  | some r1 =>
    match spanP pyIsSpaceChar r1 with
    | ([], _) => none
    | (_ :: _, r2) =>
      match spanP pyIsWordChar r2 with
      | ([], _) => none
      | (nm, r3) =>
        match r3.dropWhile pyIsSpaceChar with
        | '(' :: r4 =>
          match spanP (fun c => c ≠ ')') r4 with
          | (inner, ')' :: r5) =>
            match r5.dropWhile pyIsSpaceChar with
            | ':' :: _ =>
              let bases := (splitOnChar ',' inner).filterMap fun b =>
                let t := stripChars b
                if t.isEmpty then none else some (String.mk t)
              some (String.mk nm, bases)
            | _ => none
          | _ => none
        | ':' :: _ => some (String.mk nm, [])
        | _ => none

def startsWithColon : List Char → Bool
  | ':' :: _ => true
  | _ => false

/-- Backtracking of `(\S+)` in `(?:->\s*(\S+))?\s*:`: the regex first tries the
maximal non-space run; if no colon follows it, it retracts the run to end just
before its last colon (the longest alternative that lets the final `:` match),
which must leave at least one character. -/
def lastColonCut (tok : List Char) : Option (List Char) :=
  let revAfter := tok.reverse.takeWhile fun c => c ≠ ':'
  if revAfter.length = tok.length then none
  else
    let k := tok.length - 1 - revAfter.length
    if 1 ≤ k then some (tok.take k) else none

/-- Scanner for the suffix `\s*(?:->\s*(\S+))?\s*:` of the function pattern,
starting right after the closing parenthesis.  Returns the captured return
type on success. -/
def pyFuncTailMatch (s : List Char) : Option (Option String) :=
  let s1 := s.dropWhile pyIsSpaceChar
  match matchLit ("->").data s1 with
  | some r =>
    let s2 := r.dropWhile pyIsSpaceChar
    match spanP (fun c => !pyIsSpaceChar c) s2 with
    | ([], _) => none
    | (tok, r2) =>
      if startsWithColon (r2.dropWhile pyIsSpaceChar) then some (some (String.mk tok))
      else
        match lastColonCut tok with
        | some pre => some (some (String.mk pre))
        | none => none
  | none => if startsWithColon s1 then some none else none

/-- One parameter entry: `p.strip().split(chr(58))[0].strip()`, kept only when
the stripped entry is non-empty. -/
def pyParamName (p : List Char) : Option String :=
  let t := stripChars p
  if t.isEmpty then none
  else some (pyStrip (String.mk ((splitOnChar ':' t).headD [])))

/-- Scanner for `^(?:async\s+)?def\s+(\w+)\s*\(([^)]*)\)\s*(?:->\s*(\S+))?\s*:`
on one line: name, parameters, optional return type. -/
def pyFuncLineMatch (line : String) : Option (String × List String × Option String) :=
  let cs := line.data
  let cs1 :=
    match matchLit ("async").data cs with
    | some r =>
      match spanP pyIsSpaceChar r with
      | ([], _) => cs
      | (_ :: _, r2) => r2
    | none => cs
  match matchLit ("def").data cs1 with
  | none => none
  | some r1 =>
    match spanP pyIsSpaceChar r1 with
    | ([], _) => none
    | (_ :: _, r2) =>
      match spanP pyIsWordChar r2 with
      | ([], _) => none
      | (nm, r3) =>
        match r3.dropWhile pyIsSpaceChar with
        | '(' :: r4 =>
          match spanP (fun c => c ≠ ')') r4 with
          | (inner, ')' :: r5) =>
            match pyFuncTailMatch r5 with
            | some ret =>
              some (String.mk nm, (splitOnChar ',' inner).filterMap pyParamName, ret)
            | none => none
          | _ => none
        | _ => none

def startsWithEq : List Char → Bool
  | '=' :: _ => true
  | _ => false

/-- Scanner for `^([A-Z][A-Z0-9_]+)\s*=` on one line (constants). -/
def pyConstLineMatch (line : String) : Option String :=
  match line.data with
  | [] => none
  | c :: cs =>
    if c.isUpper then
      match spanP (fun d => d.isUpper || d.isDigit || d = '_') cs with
      | ([], _) => none
      | (run, r2) =>
        if startsWithEq (r2.dropWhile pyIsSpaceChar) then some (String.mk (c :: run))
        else none
    else none

/-- Entities extracted by one language branch of `analyze_file_locally`. -/
structure ExtractedEntities where
  imports : List ImportInfo
  exports : List String
  classes : List ClassInfo
  functions : List FunctionInfo
  constants : List String
  deriving DecidableEq, Repr

/-- The Python branch of `analyze_file_locally`: imports per line, then
classes (appended to exports unconditionally), then top-level functions
(appended to exports unless the name starts with an underscore), then
constants.  Because the class/function patterns are `^`-anchored under
`re.MULTILINE`, every match starts at a line start, so the source's
`indent == 0` test is always true and methods never match. -/
def extractPython (lines : List String) : ExtractedEntities :=
  let imports := (lines.map fun l => (pyImportMatch l).toList ++ (pyFromImportMatch l).toList).flatten
  let classes := lines.enum.filterMap fun il =>
    (pyClassLineMatch il.2).map fun nb =>
      { name := nb.1, line_number := il.1 + 1, base_classes := nb.2,
        description := "Class " ++ nb.1, methods := [], attributes := [] : ClassInfo }
  let functions := lines.enum.filterMap fun il =>
    (pyFuncLineMatch il.2).map fun d =>
      { name := d.1, line_number := il.1 + 1, parameters := d.2.1,
        return_type := d.2.2, description := "Function " ++ d.1,
        complexity := "low" : FunctionInfo }
  let exports := classes.map (fun c => c.name) ++
    (functions.filterMap fun f => if pyStartsWith f.name ("_") then none else some f.name)
  let constants := lines.filterMap pyConstLineMatch
  { imports, exports, classes, functions, constants }

/-- Fuel-driven `finditer`: try the matcher at every position, left to right;
on a match, record it with its start position and resume after its end. -/
def scanChars (m : List Char → Option (α × List Char)) :
    Nat → List Char → Nat → List (α × Nat)
  | 0, _, _ => []
  | _ + 1, [], _ => []
  | fuel + 1, c :: cs, pos =>
    match m (c :: cs) with
    | some (a, rest) =>
      (a, pos) :: scanChars m fuel rest (pos + ((c :: cs).length - rest.length))
    | none => scanChars m fuel cs (pos + 1)

def scanAll (m : List Char → Option (α × List Char)) (cs : List Char) : List (α × Nat) :=
  scanChars m cs.length cs 0

/-- `match.start()` to 1-based line number: newlines before the position. -/
def lineAtPos (content : List Char) (pos : Nat) : Nat :=
  (content.take pos).count '\n' + 1

/-- Optional regex group `(?:kw\s+)?`: consume the keyword and at least one
whitespace character, or leave the input unchanged. -/
def jsOptLit (kw : List Char) (s : List Char) : List Char :=
  match matchLit kw s with
  | some r =>
    match spanP pyIsSpaceChar r with
    | ([], _) => s
    | (_ :: _, r2) => r2
  | none => s

/-- Matcher for the JS/TS import pattern
`import\s+(?:\x7b([^\x7d]+)\x7d|(\w+))\s+from\s+['"]([^'"]+)['"]`. -/
def jsImportMatcher (s : List Char) : Option (ImportInfo × List Char) :=
  match matchLit ("import").data s with
  | none => none
  | some r1 =>
    match spanP pyIsSpaceChar r1 with
    | ([], _) => none
    | (_ :: _, r2) =>
      let namesAndRest : Option (List String × List Char) :=
        match r2 with
        | '{' :: r3 =>
          match spanP (fun c => c ≠ '}') r3 with
          | ([], _) => none
          | (inner, r4) =>
            match r4 with
            | '}' :: r5 => some ((splitOnChar ',' inner).map fun n => pyStrip (String.mk n), r5)
            | _ => none
        | _ =>
          match spanP pyIsWordChar r2 with
          | ([], _) => none
          | (nm, r3) => some ([String.mk nm], r3)
      match namesAndRest with
      | none => none
      | some (names, r5) =>
        match spanP pyIsSpaceChar r5 with
        | ([], _) => none
        | (_ :: _, r6) =>
          match matchLit ("from").data r6 with
          | none => none
          | some r7 =>
            match spanP pyIsSpaceChar r7 with
            | ([], _) => none
            | (_ :: _, r8) =>
              match r8 with
              | q :: r9 =>
                if q = '\'' || q = '"' then
                  match spanP (fun c => c ≠ '\'' && c ≠ '"') r9 with
                  | ([], _) => none
                  | (modChars, r10) =>
                    match r10 with
                    | q2 :: r11 =>
                      if q2 = '\'' || q2 = '"' then
                        let module := String.mk modChars
                        some ({ module, names,
                                is_relative := pyStartsWith module ("."),
                                is_external := !pyStartsWith module (".") }, r11)
                      else none
                    | [] => none
                else none
              | [] => none

/-- Matcher for `class\s+(\w+)\s*(?:extends\s+(\w+))?\s*\x7b` (JS/TS). -/
def jsClassMatcher (s : List Char) : Option ((String × Option String) × List Char) :=
  match matchLit ("class").data s with
  | none => none
  | some r1 =>
    match spanP pyIsSpaceChar r1 with
    | ([], _) => none
    | (_ :: _, r2) =>
      match spanP pyIsWordChar r2 with
      | ([], _) => none
      | (nm, r3) =>
        let s1 := r3.dropWhile pyIsSpaceChar
        let extPath : Option ((String × Option String) × List Char) :=
          match matchLit ("extends").data s1 with
          | none => none
          | some r4 =>
            match spanP pyIsSpaceChar r4 with
            | ([], _) => none
            | (_ :: _, r5) =>
              match spanP pyIsWordChar r5 with
              | ([], _) => none
              | (bn, r6) =>
                match r6.dropWhile pyIsSpaceChar with
                | '{' :: r7 => some ((String.mk nm, some (String.mk bn)), r7)
                | _ => none
        match extPath with
        | some res => some res
        | none =>
          match s1 with
          | '{' :: r7 => some ((String.mk nm, none), r7)
          | _ => none

/-- Matcher for `(?:export\s+)?(?:async\s+)?function\s+(\w+)\s*\(([^)]*)\)`. -/
def jsFuncDeclMatcher (s : List Char) : Option (String × List Char) :=
  let s1 := jsOptLit (("export").data) s
  let s2 := jsOptLit (("async").data) s1
  match matchLit ("function").data s2 with
  | none => none
  | some r1 =>
    match spanP pyIsSpaceChar r1 with
    | ([], _) => none
    | (_ :: _, r2) =>
      match spanP pyIsWordChar r2 with
      | ([], _) => none
      | (nm, r3) =>
        match r3.dropWhile pyIsSpaceChar with
        | '(' :: r4 =>
          match spanP (fun c => c ≠ ')') r4 with
          | (_, ')' :: r5) => some (String.mk nm, r5)
          | _ => none
        | _ => none

/-- Matcher for `(?:export\s+)?const\s+(\w+)\s*=\s*(?:async\s+)?\([^)]*\)\s*=>`. -/
def jsArrowMatcher (s : List Char) : Option (String × List Char) :=
  let s1 := jsOptLit (("export").data) s
  match matchLit ("const").data s1 with
  | none => none
  | some r1 =>
    match spanP pyIsSpaceChar r1 with
    | ([], _) => none
    | (_ :: _, r2) =>
      match spanP pyIsWordChar r2 with
      | ([], _) => none
      | (nm, r3) =>
        match r3.dropWhile pyIsSpaceChar with
        | '=' :: r4 =>
          match jsOptLit (("async").data) (r4.dropWhile pyIsSpaceChar) with
          | '(' :: r7 =>
            match spanP (fun c => c ≠ ')') r7 with
            | (_, ')' :: r8) =>
              match matchLit ("=>").data (r8.dropWhile pyIsSpaceChar) with
              | some r9 => some (String.mk nm, r9)
              | none => none
            | _ => none
          | _ => none
        | _ => none

def jsExportKw : List (List Char) :=
  [("const").data, ("let").data, ("var").data, ("function").data,
   ("class").data, ("async function").data]

/-- The keyword alternation of the export pattern, tried left to right; on a
failure after the keyword literal the engine falls through to the remaining
alternatives (at most one alternative can match at a given position). -/
def jsTryKw (s : List Char) : List (List Char) → Option (String × List Char)
  | [] => none
  | kw :: rest =>
    match matchLit kw s with
    | some r1 =>
      match spanP pyIsSpaceChar r1 with
      | ([], _) => jsTryKw s rest
      | (_ :: _, r2) =>
        match spanP pyIsWordChar r2 with
        | ([], _) => jsTryKw s rest
        | (nm, r3) => some (String.mk nm, r3)
    | none => jsTryKw s rest

/-- Matcher for
`export\s+(?:default\s+)?(?:const|let|var|function|class|async function)\s+(\w+)`. -/
def jsExportMatcher (s : List Char) : Option (String × List Char) :=
  match matchLit ("export").data s with
  | none => none
  | some r1 =>
    match spanP pyIsSpaceChar r1 with
    | ([], _) => none
    | (_ :: _, r2) => jsTryKw (jsOptLit (("default").data) r2) jsExportKw

/-- The JS/TS branch of `analyze_file_locally`.  Classes are not added to
exports in this branch; only the export pattern populates them.  The source
does not extract constants for JS/TS. -/
def extractJsTs (content : String) : ExtractedEntities :=
  let cs := content.data
  let imports := (scanAll jsImportMatcher cs).map fun ip => ip.1
  let classes := (scanAll jsClassMatcher cs).map fun cp =>
    { name := cp.1.1, line_number := lineAtPos cs cp.2,
      base_classes := match cp.1.2 with | some b => [b] | none => [],
      description := "Class " ++ cp.1.1, methods := [], attributes := [] : ClassInfo }
  let functions :=
    (scanAll jsFuncDeclMatcher cs ++ scanAll jsArrowMatcher cs).map fun fp =>
      { name := fp.1, line_number := lineAtPos cs fp.2, parameters := [],
        return_type := none, description := "Function " ++ fp.1,
        complexity := "low" : FunctionInfo }
  let exports := (scanAll jsExportMatcher cs).map fun ep => ep.1
  { imports, exports, classes, functions, constants := [] }

/-- The complexity-score computation of `analyze_file_locally`, verbatim:
baseline 5, one conditional increment per factor, one conditional decrement,
then clamp into `[1, 10]`. -/
def computeComplexityScore (classes : List ClassInfo) (functions : List FunctionInfo)
    (imports : List ImportInfo) (lines : List String) : Nat :=
  let s1 := if classes.length > 5 then 5 + 1 else 5
  let s2 := if functions.length > 10 then s1 + 1 else s1
  let s3 := if imports.length > 15 then s2 + 1 else s2
  let s4 := if lines.length > 500 then s3 + 1 else s3
  let s5 := if lines.length < 50 then s4 - 1 else s4
  max 1 (min 10 s5)

/-- Filename-keyword purpose inference of `analyze_file_locally`. -/
def inferPurpose (file_path : String) (classes : List ClassInfo)
    (functions : List FunctionInfo) : String :=
  let file_name := pyLower (pyBasename file_path)
  if pyContains file_name ("test") then "Test file"
  else if pyContains file_name ("config") || pyContains file_name ("settings") then
    "Configuration"
  else if pyContains file_name ("model") then "Data models"
  else if pyContains file_name ("util") || pyContains file_name ("helper") then
    "Utility functions"
  else if pyContains file_name ("main") || pyContains file_name ("app")
      || pyContains file_name ("index") then "Application entry point"
  else if pyContains file_name ("api") || pyContains file_name ("route") then
    "API endpoints"
  else if !classes.isEmpty then
    "Defines " ++ toString classes.length ++ " class(es)"
  else if !functions.isEmpty then
    "Defines " ++ toString functions.length ++ " function(s)"
  else "Unknown"

/-- `analyze_file_locally(file_path, content, language)` from
`doc_agents/file_analyzer.py`.  Total by construction: every input yields a
`FileAnalysisHandoff` (the source raises on no input either; its only
operations are regex scans and list building). -/
def analyze_file_locally (file_path content language : String) : FileAnalysisHandoff :=
  let lines := pySplitLines content
  let e :=
    if language = "python" then extractPython lines
    else if language = "javascript" || language = "typescript" then extractJsTs content
    else { imports := [], exports := [], classes := [], functions := [], constants := [] }
  { path := file_path,
    language := if language = "" then "unknown" else language,
    purpose := inferPurpose file_path e.classes e.functions,
    imports := e.imports,
    exports := e.exports,
    classes := e.classes,
    functions := e.functions,
    constants := e.constants,
    key_insights := [],
    dependencies := (e.imports.filter fun i => i.is_external).map fun i => i.module,
    complexity_score := computeComplexityScore e.classes e.functions e.imports lines,
    raw_summary := "File with " ++ toString e.classes.length ++ " classes and "
      ++ toString e.functions.length ++ " functions" }

/-! ## `SubagentCoordinator` (doc_agents/subagent_coordinator.py)

`run_task` wraps one provider invocation: the body builds an agent, awaits the
external runner, and returns a success result carrying `result.final_output`
verbatim; any exception is caught and becomes a failure result with
`error = str(e)`.  The provider behaviour is therefore modelled as
`Except String (Option α)`: an exception message, or a final output that the
runner may or may not produce (the source itself guards
`if result.final_output` at line 98, so `None` outputs are anticipated).
The semaphore that brackets the body is modelled separately as a transition
system below (`SemState`/`SemStep`); it affects scheduling only, never the
value of a result. -/

structure SubagentTask where
  name : String
  prompt : String
  model : String
  api_key : String
  max_tokens : Nat := 4096
  deriving DecidableEq, Repr

/-- `SubagentResult`: `output` and `error` are `Any`/`str = None` in the
source, both nullable, hence `Option`. -/
structure SubagentResult (α : Type) where
  task_name : String
  success : Bool
  output : Option α
  error : Option String
  deriving DecidableEq, Repr

structure SubagentCoordinator where
  max_concurrent : Nat := 5
  deriving DecidableEq, Repr

/-- `SubagentCoordinator.run_task`, as a function of the provider behaviour. -/
def SubagentCoordinator.run_task (_c : SubagentCoordinator) (t : SubagentTask)
    (provider : Except String (Option α)) : SubagentResult α :=
  match provider with
  | .ok o => { task_name := t.name, success := true, output := o, error := none }
  | .error e => { task_name := t.name, success := false, output := none, error := some e }

/-- Behaviour of one `run_with_progress` slot: the provider outcome consumed by
`run_task`, plus whether the progress callback (invoked after `run_task`
returns) raises. -/
structure TaskRunBeh (α : Type) where
  provider : Except String (Option α)
  callback_raises : Option String
  deriving Repr

/-- The inner coroutine of `run_parallel`: `run_task` never raises, but the
progress callback runs afterwards and may; its exception escapes the
coroutine. -/
def runWithProgress (c : SubagentCoordinator) (t : SubagentTask) (b : TaskRunBeh α) :
    Except String (SubagentResult α) :=
  let r := c.run_task t b.provider
  match b.callback_raises with
  | none => .ok r
  | some e => .error e

/-- One slot of `asyncio.gather(..., return_exceptions=True)` followed by the
exception-to-result conversion loop: an escaped exception in slot `i` becomes
a failure `SubagentResult` named after `tasks[i]`. -/
def gatherSlot (c : SubagentCoordinator) (t : SubagentTask) (b : TaskRunBeh α) :
    SubagentResult α :=
  match runWithProgress c t b with
  | .ok r => r
  | .error e => { task_name := t.name, success := false, output := none, error := some e }

/-- `run_parallel` builds one gather slot per task, positionally: `gather`
stores each coroutine's result at the index of its argument, so the output
order is the input order whatever the completion order; the completion order
influences only the `completed` counter passed to the progress callback, which
never reaches the result list. -/
def runParallelFrom (c : SubagentCoordinator) :
    Nat → List SubagentTask → (Nat → TaskRunBeh α) → List (SubagentResult α)
  | _, [], _ => []
  | i, t :: ts, beh => gatherSlot c t (beh i) :: runParallelFrom c (i + 1) ts beh

def SubagentCoordinator.run_parallel (c : SubagentCoordinator)
    (tasks : List SubagentTask) (beh : Nat → TaskRunBeh α) : List (SubagentResult α) :=
  runParallelFrom c 0 tasks beh

/-! ### Semaphore discipline

`__init__` creates `asyncio.Semaphore(max_concurrent)`; `run_task` executes
its whole body inside `async with self.semaphore`.  The observable state is
the semaphore's available count and the number of task bodies currently past
the acquire; a body may start only when a permit is available, and returns its
permit when it finishes. -/

structure SemState where
  available : Nat
  running : Nat
  deriving DecidableEq, Repr

/-- Initial state of a fresh coordinator: all permits free, no body running. -/
def SubagentCoordinator.initSemState (c : SubagentCoordinator) : SemState :=
  { available := c.max_concurrent, running := 0 }

/-- Atomic events of the semaphore protocol. -/
inductive SemStep : SemState → SemState → Prop
  | acquire (s : SemState) : 0 < s.available →
      SemStep s { available := s.available - 1, running := s.running + 1 }
  | release (s : SemState) : 0 < s.running →
      SemStep s { available := s.available + 1, running := s.running - 1 }

/-- Reachability from a given initial state under `SemStep`. -/
inductive SemReach (init : SemState) : SemState → Prop
  | refl : SemReach init init
  | step {s t : SemState} : SemReach init s → SemStep s t → SemReach init t

/-! ## `identify_modules` and `build_dependency_graph`
(doc_agents/module_analyzer.py) -/

/-- Grouping key: `os.path.dirname(path)`, with the empty result replaced by
a dot (files at the repository root). -/
def dirKeyOf (path : String) : String :=
  let d := pyDirname path
  if d = "" then "." else d

/-- One dict insertion `dir_files[dir_path].append(analysis)`: append to an
existing key's list, or add the key at the end (dict insertion order). -/
def insertGroup (k : String) (a : FileAnalysisHandoff) :
    List (String × List FileAnalysisHandoff) → List (String × List FileAnalysisHandoff)
  | [] => [(k, [a])]
  | (k', fs) :: rest =>
    if k' = k then (k', fs ++ [a]) :: rest else (k', fs) :: insertGroup k a rest

/-- The `dir_files` dictionary of `identify_modules`, as an insertion-ordered
association list. -/
def groupByDir (fas : List FileAnalysisHandoff) : List (String × List FileAnalysisHandoff) :=
  fas.foldl (fun acc a => insertGroup (dirKeyOf a.path) a acc) []

/-- First-occurrence deduplication (dict-key iteration order). -/
def dedupFirstStr (seen : List String) : List String → List String
  | [] => []
  | x :: xs =>
    if seen.contains x then dedupFirstStr seen xs
    else x :: dedupFirstStr (seen ++ [x]) xs

/-- `collections.Counter(l).most_common(1)[0][0]`: the most frequent element;
`most_common` sorts stably over first-insertion order, so ties go to the
earliest-inserted element. -/
def mostCommonStr : List String → String
  | [] => ""
  | x :: xs =>
    (dedupFirstStr [] (x :: xs)).foldl
      (fun best cur => if (x :: xs).count cur > (x :: xs).count best then cur else best) x

/-- Construction of one `ModuleInfo` from a non-skipped directory group. -/
def moduleOfGroup (dir_path : String) (files : List FileAnalysisHandoff) : ModuleInfo :=
  let module_name :=
    if dir_path = "." then "root"
    else pyReplaceChar '\\' '.' (pyReplaceChar '/' '.' dir_path)
  let public_api := files.flatMap fun f => f.exports.filterMap fun ex =>
    if pyStartsWith ex ("_") then none else some (f.path ++ ":" ++ ex)
  let internal_components := files.flatMap fun f => f.exports.filterMap fun ex =>
    if pyStartsWith ex ("_") then some (f.path ++ ":" ++ ex) else none
  let purposes := files.filterMap fun f =>
    if f.purpose = "" then none
    else if f.purpose = "Unknown" then none
    else some f.purpose
  let purpose :=
    if purposes.isEmpty then "Module containing " ++ toString files.length ++ " files"
    else mostCommonStr purposes
  { name := module_name, path := dir_path, files := files.map fun f => f.path,
    purpose, public_api := public_api.take 20,
    internal_components := internal_components.take 10 }

/-- `identify_modules(file_analyses, repository_path)`: every directory group
yields one module, except the root group when it holds fewer than 3 files.
The `repository_path` parameter is unused in the source body. -/
def identify_modules (file_analyses : List FileAnalysisHandoff)
    (_repository_path : String) : List ModuleInfo :=
  (groupByDir file_analyses).filterMap fun g =>
    if g.1 = "." ∧ g.2.length < 3 then none else some (moduleOfGroup g.1 g.2)

/-- The path-match test of import resolution:
`other_base.endswith(target_module) or target_module in other_base` with
`other_base = os.path.splitext(other_path)[0]`. -/
def importCond (other_path target_module : String) : Bool :=
  pyEndsWith (pySplitextBase other_path) target_module ||
  pyContains (pySplitextBase other_path) target_module

/-- The inner `for other_path in file_exports.keys(): ... break` loop:
return the first key matching, then stop scanning. -/
def importScanLoop (target_module : String) : List String → Option String
  | [] => none
  | p :: rest =>
    if importCond p target_module then some p
    else importScanLoop target_module rest

/-- The import loop of `build_dependency_graph`, with the accumulated edge
list threaded exactly as the Python `edges.append` does. -/
def importLoop (paths : List String) (src : String) :
    List ImportInfo → List DependencyEdge → List DependencyEdge
  | [], acc => acc
  | imp :: rest, acc =>
    importLoop paths src rest
      (if imp.is_relative || !imp.is_external then
        match importScanLoop (pyReplaceChar '.' '/' imp.module) paths with
        | some p => acc ++
            [{ source := src, target := p, relationship_type := "imports", strength := "normal" }]
        | none => acc
      else acc)

/-- Innermost inheritance loop: one `extends` edge per class of the other
file whose name equals the base (no break: multiple matches all append). -/
def extendsClassLoop (src otherPath base : String) :
    List ClassInfo → List DependencyEdge → List DependencyEdge
  | [], acc => acc
  | oc :: rest, acc =>
    extendsClassLoop src otherPath base rest
      (if oc.name = base then acc ++
        [{ source := src, target := otherPath, relationship_type := "extends", strength := "strong" }]
      else acc)

/-- Scan of all other files for a base class (files equal to the source path
are skipped). -/
def extendsOtherLoop (src base : String) :
    List FileAnalysisHandoff → List DependencyEdge → List DependencyEdge
  | [], acc => acc
  | other :: rest, acc =>
    extendsOtherLoop src base rest
      (if other.path = src then acc else extendsClassLoop src other.path base other.classes acc)

def extendsBaseLoop (fas : List FileAnalysisHandoff) (src : String) :
    List String → List DependencyEdge → List DependencyEdge
  | [], acc => acc
  | base :: rest, acc => extendsBaseLoop fas src rest (extendsOtherLoop src base fas acc)

def extendsClsLoop (fas : List FileAnalysisHandoff) (src : String) :
    List ClassInfo → List DependencyEdge → List DependencyEdge
  | [], acc => acc
  | cls :: rest, acc => extendsClsLoop fas src rest (extendsBaseLoop fas src cls.base_classes acc)

/-- Outer loop over the analyses: per file, imports first, then inheritance. -/
def bdgFileLoop (paths : List String) (fas : List FileAnalysisHandoff) :
    List FileAnalysisHandoff → List DependencyEdge → List DependencyEdge
  | [], acc => acc
  | a :: rest, acc =>
    bdgFileLoop paths fas rest
      (extendsClsLoop fas a.path a.classes (importLoop paths a.path a.imports acc))

/-- Keys of the `file_exports` dictionary (only its keys are ever read):
file paths in first-insertion order. -/
def filePathKeys (fas : List FileAnalysisHandoff) : List String :=
  dedupFirstStr [] (fas.map fun a => a.path)

/-- `build_dependency_graph(file_analyses)` from
`doc_agents/module_analyzer.py`. -/
def build_dependency_graph (file_analyses : List FileAnalysisHandoff) : List DependencyEdge :=
  bdgFileLoop (filePathKeys file_analyses) file_analyses file_analyses []

/-! ### Specification-side formulation of the edge builder (for claim C7)

The following definitions restate, in the words of the specification, how
edges are produced: per relative-or-internal import, at most one
"imports"/"normal" edge, to the *first* matching file in iteration order
(`List.find?`), scanning stopped there; per declared base class, one
"extends"/"strong" edge for *every* matching class in every other file. -/

def importEdgesSpec (paths : List String) (a : FileAnalysisHandoff) : List DependencyEdge :=
  a.imports.filterMap fun imp =>
    if imp.is_relative || !imp.is_external then
      (paths.find? fun p => importCond p (pyReplaceChar '.' '/' imp.module)).map fun p =>
        { source := a.path, target := p, relationship_type := "imports", strength := "normal" }
    else none

def extendsEdgesSpec (fas : List FileAnalysisHandoff) (a : FileAnalysisHandoff) :
    List DependencyEdge :=
  a.classes.flatMap fun cls => cls.base_classes.flatMap fun base =>
    fas.flatMap fun other =>
      if other.path = a.path then []
      else other.classes.filterMap fun oc =>
        if oc.name = base then
          some { source := a.path, target := other.path,
                 relationship_type := "extends", strength := "strong" }
        else none

def dependencyGraphSpec (fas : List FileAnalysisHandoff) : List DependencyEdge :=
  fas.flatMap fun a => importEdgesSpec (filePathKeys fas) a ++ extendsEdgesSpec fas a

/-! ## `DocumentationOrchestrator.run` (doc_agents/orchestrator.py) -/

/-- `DocumentationSection` from `models/handoff.py` (recursive subsections). -/
inductive DocumentationSection where
  | mk (title content : String) (subsections : List DocumentationSection)

def DocumentationSection.title : DocumentationSection → String
  | .mk t _ _ => t

def DocumentationSection.content : DocumentationSection → String
  | .mk _ c _ => c

/-- `CodeExample` from `models/handoff.py`. -/
structure CodeExample where
  title : String
  description : String
  code : String
  language : String
  file_references : List String
  prerequisites : List String

/-- `FinalDocumentation` from `models/handoff.py`. -/
structure FinalDocumentation where
  repository_name : String
  overview : String
  architecture : DocumentationSection
  modules : List DocumentationSection
  api_reference : DocumentationSection
  examples : List CodeExample
  getting_started : DocumentationSection
  configuration : Option DocumentationSection

/-- The section contents assembled by `run_doc_synthesis`. -/
structure SynthesisSections where
  repo_name : String
  overview : String
  architecture : DocumentationSection
  modules : List DocumentationSection
  api_reference : DocumentationSection
  getting_started : DocumentationSection

/-- The `FinalDocumentation(...)` constructor call at the end of
`run_doc_synthesis` (doc_agents/doc_synthesizer.py): the examples list is the
literal `[]`, annotated "Filled by example generator"; configuration is
`None`. -/
def run_doc_synthesis_assemble (s : SynthesisSections) : FinalDocumentation :=
  { repository_name := s.repo_name, overview := s.overview,
    architecture := s.architecture, modules := s.modules,
    api_reference := s.api_reference, examples := [],
    getting_started := s.getting_started, configuration := none }

/-- Outcome of each phase body, abstracting the awaited coroutines of
`DocumentationOrchestrator.run`.  The payloads of the three load-bearing
analysis phases are never inspected by the final document, hence type parameters. -/
structure PhaseOutcomes (δ φ μ : Type) where
  discovery : Except String δ
  file_analysis : Except String φ
  module_analysis : Except String μ
  synthesis : Except String SynthesisSections
  example_generation : Except String (List CodeExample)
  faq_generation : Except String (List String)

/-- `DocumentationOrchestrator.run`: phases 1-4 re-raise on failure (the run
aborts, reporting the failing phase and cause); phase 5 assigns
`documentation.examples` only when example generation succeeds, and swallows
its failure; phase 6 (FAQ) never modifies the document and also swallows
failure.  The result is the `Done` document or the aborting phase and cause. -/
def orchestratorRun (env : PhaseOutcomes δ φ μ) :
    Except (String × String) FinalDocumentation :=
  match env.discovery with
  | .error e => .error ("Discovery", e)
  | .ok _ =>
    match env.file_analysis with
    | .error e => .error ("File Analysis", e)
    | .ok _ =>
      match env.module_analysis with
      | .error e => .error ("Module Analysis", e)
      | .ok _ =>
        match env.synthesis with
        | .error e => .error ("Documentation Synthesis", e)
        | .ok secs =>
          let doc := run_doc_synthesis_assemble secs
          match env.example_generation with
          | .ok ex => .ok { doc with examples := ex }
          | .error _ => .ok doc

/-! ## Helper lemmas -/

theorem importScanLoop_eq_find (tm : String) (paths : List String) :
    importScanLoop tm paths = paths.find? fun p => importCond p tm := by
  induction paths with
  | nil => rfl
  | cons p rest ih =>
    cases h : importCond p tm <;>
      simp [importScanLoop, List.find?_cons, h, ih]

theorem importLoop_eq (paths : List String) (src : String) (imps : List ImportInfo)
    (acc : List DependencyEdge) :
    importLoop paths src imps acc = acc ++ imps.filterMap (fun imp =>
      if imp.is_relative || !imp.is_external then
        (paths.find? fun p => importCond p (pyReplaceChar '.' '/' imp.module)).map fun p =>
          { source := src, target := p, relationship_type := "imports", strength := "normal" }
      else none) := by
  induction imps generalizing acc with
  | nil => simp [importLoop]
  | cons imp rest ih =>
    rw [importLoop, ih, List.filterMap_cons, ← importScanLoop_eq_find]
    cases h : (imp.is_relative || !imp.is_external)
    · simp [h]
    · cases hs : importScanLoop (pyReplaceChar '.' '/' imp.module) paths <;> simp [h, hs]

theorem extendsClassLoop_eq (src otherPath base : String) (cls : List ClassInfo)
    (acc : List DependencyEdge) :
    extendsClassLoop src otherPath base cls acc = acc ++ cls.filterMap (fun oc =>
      if oc.name = base then
        some { source := src, target := otherPath,
               relationship_type := "extends", strength := "strong" }
      else none) := by
  induction cls generalizing acc with
  | nil => simp [extendsClassLoop]
  | cons oc rest ih =>
    rw [extendsClassLoop, ih]
    by_cases h : oc.name = base <;> simp [h]

theorem extendsOtherLoop_eq (src base : String) (l : List FileAnalysisHandoff)
    (acc : List DependencyEdge) :
    extendsOtherLoop src base l acc = acc ++ l.flatMap (fun other =>
      if other.path = src then []
      else other.classes.filterMap fun oc =>
        if oc.name = base then
          some { source := src, target := other.path,
                 relationship_type := "extends", strength := "strong" }
        else none) := by
  induction l generalizing acc with
  | nil => simp [extendsOtherLoop]
  | cons other rest ih =>
    rw [extendsOtherLoop, ih]
    by_cases h : other.path = src
    · simp [h]
    · rw [extendsClassLoop_eq]
      simp [h]

theorem extendsBaseLoop_eq (fas : List FileAnalysisHandoff) (src : String)
    (bases : List String) (acc : List DependencyEdge) :
    extendsBaseLoop fas src bases acc = acc ++ bases.flatMap (fun base =>
      fas.flatMap fun other =>
        if other.path = src then []
        else other.classes.filterMap fun oc =>
          if oc.name = base then
            some { source := src, target := other.path,
                   relationship_type := "extends", strength := "strong" }
          else none) := by
  induction bases generalizing acc with
  | nil => simp [extendsBaseLoop]
  | cons base rest ih =>
    rw [extendsBaseLoop, ih, extendsOtherLoop_eq]
    simp

theorem extendsClsLoop_eq (fas : List FileAnalysisHandoff) (src : String)
    (cls : List ClassInfo) (acc : List DependencyEdge) :
    extendsClsLoop fas src cls acc = acc ++ cls.flatMap (fun c =>
      c.base_classes.flatMap fun base =>
        fas.flatMap fun other =>
          if other.path = src then []
          else other.classes.filterMap fun oc =>
            if oc.name = base then
              some { source := src, target := other.path,
                     relationship_type := "extends", strength := "strong" }
            else none) := by
  induction cls generalizing acc with
  | nil => simp [extendsClsLoop]
  | cons c rest ih =>
    rw [extendsClsLoop, ih, extendsBaseLoop_eq]
    simp

theorem bdgFileLoop_eq (paths : List String) (fas l : List FileAnalysisHandoff)
    (acc : List DependencyEdge) :
    bdgFileLoop paths fas l acc =
      acc ++ l.flatMap (fun a => importEdgesSpec paths a ++ extendsEdgesSpec fas a) := by
  induction l generalizing acc with
  | nil => simp [bdgFileLoop]
  | cons a rest ih =>
    rw [bdgFileLoop, ih, extendsClsLoop_eq, importLoop_eq]
    simp [importEdgesSpec, extendsEdgesSpec]

theorem bdg_eq_spec (fas : List FileAnalysisHandoff) :
    build_dependency_graph fas = dependencyGraphSpec fas := by
  rw [build_dependency_graph, dependencyGraphSpec, bdgFileLoop_eq]
  simp

theorem mem_dedupFirstStr {x : String} :
    ∀ (seen l : List String), x ∈ dedupFirstStr seen l → x ∈ l := by
  intro seen l
  induction l generalizing seen with
  | nil => simp [dedupFirstStr]
  | cons y ys ih =>
    intro h
    cases hy : seen.contains y
    · simp only [dedupFirstStr, hy] at h
      rcases List.mem_cons.mp h with h1 | h2
      · exact h1 ▸ List.mem_cons_self _ _
      · exact List.mem_cons_of_mem _ (ih _ h2)
    · simp only [dedupFirstStr, hy, if_true] at h
      exact List.mem_cons_of_mem _ (ih _ h)

theorem mem_filePathKeys {p : String} (fas : List FileAnalysisHandoff)
    (h : p ∈ filePathKeys fas) : p ∈ fas.map fun a => a.path :=
  mem_dedupFirstStr _ _ h

theorem insertGroup_keys (k : String) (a : FileAnalysisHandoff)
    (l : List (String × List FileAnalysisHandoff)) :
    (insertGroup k a l).map Prod.fst =
      if k ∈ l.map Prod.fst then l.map Prod.fst else l.map Prod.fst ++ [k] := by
  induction l with
  | nil => simp [insertGroup]
  | cons kv rest ih =>
    obtain ⟨k', fs⟩ := kv
    by_cases h : k' = k
    · simp [insertGroup, h]
    · have hne : ¬ k = k' := fun e => h e.symm
      simp only [insertGroup, if_neg h, List.map_cons, List.mem_cons, ih]
      by_cases hm : k ∈ rest.map Prod.fst <;> simp [hm, hne]

theorem insertGroup_keys_nodup {k : String} {a : FileAnalysisHandoff}
    {l : List (String × List FileAnalysisHandoff)}
    (h : (l.map Prod.fst).Nodup) : ((insertGroup k a l).map Prod.fst).Nodup := by
  rw [insertGroup_keys]
  split
  · exact h
  · next hk => exact List.Nodup.append h (List.nodup_singleton k) (by simpa using hk)

theorem groupByDir_foldl_nodup (fas : List FileAnalysisHandoff) :
    ∀ acc : List (String × List FileAnalysisHandoff), ((acc.map Prod.fst).Nodup) →
      (((fas.foldl (fun acc a => insertGroup (dirKeyOf a.path) a acc) acc).map
        Prod.fst).Nodup) := by
  induction fas with
  | nil => intro acc h; simpa using h
  | cons a rest ih => intro acc h; exact ih _ (insertGroup_keys_nodup h)

theorem groupByDir_keys_nodup (fas : List FileAnalysisHandoff) :
    ((groupByDir fas).map Prod.fst).Nodup :=
  groupByDir_foldl_nodup fas [] (by simp)

theorem moduleOfGroup_path (d : String) (fs : List FileAnalysisHandoff) :
    (moduleOfGroup d fs).path = d := rfl

theorem modulesFilter_path_zero (d : String)
    (groups : List (String × List FileAnalysisHandoff))
    (hd : d ∉ groups.map Prod.fst) :
    ((groups.filterMap fun g =>
        if g.1 = "." ∧ g.2.length < 3 then none else some (moduleOfGroup g.1 g.2)).filter
      fun m => m.path = d).length = 0 := by
  induction groups with
  | nil => rfl
  | cons g rest ih =>
    obtain ⟨k, fs⟩ := g
    have hkd : ¬ ((moduleOfGroup k fs).path = d) := by
      rw [moduleOfGroup_path]
      intro e
      exact hd (by simp [e])
    have hrest : d ∉ rest.map Prod.fst := fun e => hd (by simp [e])
    by_cases hskip : ((k, fs).1 = "." ∧ (k, fs).2.length < 3)
    · simp only [List.filterMap_cons, if_pos hskip]
      exact ih hrest
    · simp only [List.filterMap_cons, if_neg hskip]
      rw [List.filter_cons_of_neg (by simpa using hkd)]
      exact ih hrest

theorem modulesFilter_path_count (d : String) (fs : List FileAnalysisHandoff)
    (groups : List (String × List FileAnalysisHandoff))
    (hnd : (groups.map Prod.fst).Nodup) (hmem : (d, fs) ∈ groups) :
    ((groups.filterMap fun g =>
        if g.1 = "." ∧ g.2.length < 3 then none else some (moduleOfGroup g.1 g.2)).filter
      fun m => m.path = d).length = if d = "." ∧ fs.length < 3 then 0 else 1 := by
  induction groups with
  | nil => cases hmem
  | cons g rest ih =>
    rcases List.mem_cons.mp hmem with he | hm
    · subst he
      have hdrest : d ∉ rest.map Prod.fst := by
        simpa using (List.nodup_cons.mp hnd).1
      by_cases hcond : ((d, fs).1 = "." ∧ (d, fs).2.length < 3)
      · simp only [List.filterMap_cons, if_pos hcond]
        exact modulesFilter_path_zero d rest hdrest
      · simp only [List.filterMap_cons, if_neg hcond]
        rw [List.filter_cons_of_pos (by simp [moduleOfGroup_path])]
        simp [modulesFilter_path_zero d rest hdrest]
    · obtain ⟨k, gs⟩ := g
      have hdk : ¬ ((moduleOfGroup k gs).path = d) := by
        rw [moduleOfGroup_path]
        intro e
        subst e
        exact (List.nodup_cons.mp hnd).1 (List.mem_map.mpr ⟨(k, fs), hm, rfl⟩)
      by_cases hskip : ((k, gs).1 = "." ∧ (k, gs).2.length < 3)
      · simp only [List.filterMap_cons, if_pos hskip]
        exact ih (List.nodup_cons.mp hnd).2 hm
      · simp only [List.filterMap_cons, if_neg hskip]
        rw [List.filter_cons_of_neg (by simpa using hdk)]
        exact ih (List.nodup_cons.mp hnd).2 hm

theorem gatherSlot_name {α : Type} (c : SubagentCoordinator) (t : SubagentTask)
    (b : TaskRunBeh α) : (gatherSlot c t b).task_name = t.name := by
  cases hb : b.callback_raises <;> cases hp : b.provider <;>
    simp [gatherSlot, runWithProgress, SubagentCoordinator.run_task, hb, hp]

theorem runParallelFrom_length {α : Type} (c : SubagentCoordinator)
    (beh : Nat → TaskRunBeh α) :
    ∀ (i : Nat) (ts : List SubagentTask),
      (runParallelFrom c i ts beh).length = ts.length := by
  intro i ts
  induction ts generalizing i with
  | nil => simp [runParallelFrom]
  | cons t rest ih => simp [runParallelFrom, ih]

theorem runParallelFrom_get (c : SubagentCoordinator) (beh : Nat → TaskRunBeh α) :
    ∀ (ts : List SubagentTask) (i j : Nat),
      (runParallelFrom c i ts beh).get? j =
        (ts.get? j).map fun t => gatherSlot c t (beh (i + j)) := by
  intro ts
  induction ts with
  | nil => intro i j; simp [runParallelFrom]
  | cons t rest ih =>
    intro i j
    cases j with
    | zero => simp [runParallelFrom]
    | succ j =>
      simp only [runParallelFrom, List.get?_cons_succ]
      rw [ih (i + 1) j, show i + 1 + j = i + (j + 1) from by omega]

theorem semReach_sum (c : SubagentCoordinator) (s : SemState)
    (h : SemReach c.initSemState s) : s.available + s.running = c.max_concurrent := by
  induction h with
  | refl => simp [SubagentCoordinator.initSemState]
  | step _ hstep ih =>
    cases hstep with
    | acquire h0 => dsimp only; omega
    | release h0 => dsimp only; omega

/-- The complexity-score formula in the words of the specification: baseline
5, plus 1 per satisfied size factor, minus 1 for very short files, clamped
into `[1, 10]`. -/
def specComplexityFormula (nc nf ni nl : Nat) : Nat :=
  max 1 (min 10 (5 + (if 5 < nc then 1 else 0) + (if 10 < nf then 1 else 0)
    + (if 15 < ni then 1 else 0) + (if 500 < nl then 1 else 0)
    - (if nl < 50 then 1 else 0)))

theorem computeComplexityScore_eq_spec (cs : List ClassInfo) (fs : List FunctionInfo)
    (im : List ImportInfo) (ls : List String) :
    computeComplexityScore cs fs im ls =
      specComplexityFormula cs.length fs.length im.length ls.length := by
  simp only [computeComplexityScore, specComplexityFormula]
  split_ifs <;> rfl

theorem computeComplexityScore_ge_one (cs : List ClassInfo) (fs : List FunctionInfo)
    (im : List ImportInfo) (ls : List String) :
    1 ≤ computeComplexityScore cs fs im ls :=
  le_max_left 1 _

theorem computeComplexityScore_le_ten (cs : List ClassInfo) (fs : List FunctionInfo)
    (im : List ImportInfo) (ls : List String) :
    computeComplexityScore cs fs im ls ≤ 10 :=
  max_le (by omega) (min_le_left _ _)

theorem filterMap_public_names (functions : List FunctionInfo) :
    functions.filterMap (fun f => if pyStartsWith f.name ("_") then none else some f.name)
      = (functions.map fun f => f.name).filter fun n => !pyStartsWith n ("_") := by
  induction functions with
  | nil => rfl
  | cons f rest ih =>
    cases h : pyStartsWith f.name ("_") <;>
      simp [List.filterMap_cons, List.filter_cons, h, ih]

theorem extractPython_exports (lines : List String) :
    (extractPython lines).exports
      = (extractPython lines).classes.map (fun c => c.name)
        ++ (((extractPython lines).functions.map fun f => f.name).filter
            fun n => !pyStartsWith n ("_")) := by
  rw [← filterMap_public_names]
  rfl

/-! ## Sample inputs used by witnesses -/

def plainFA (p : String) : FileAnalysisHandoff :=
  { path := p, language := "python", purpose := "Unknown", imports := [],
    exports := [], classes := [], functions := [], constants := [],
    key_insights := [], dependencies := [], complexity_score := 5,
    raw_summary := "" }

def c1Tasks : List SubagentTask :=
  [{ name := "explore_a", prompt := "p1", model := "m", api_key := "k" },
   { name := "explore_b", prompt := "p2", model := "m", api_key := "k" }]

def c1Beh : Nat → TaskRunBeh String := fun i =>
  { provider := if i = 0 then Except.error ("provider timeout") else Except.ok (some ("analysis")),
    callback_raises := none }

def c3Task : SubagentTask :=
  { name := "synthesis", prompt := "p", model := "m", api_key := "k" }

def c5Fas : List FileAnalysisHandoff :=
  [{ plainFA ("a/m.py") with
      imports := [{ module := "b.helper", names := [], is_relative := true,
                    is_external := false }] },
   plainFA ("b/helper.py")]

def c5Edge : DependencyEdge :=
  { source := "a/m.py", target := "b/helper.py", relationship_type := "imports",
    strength := "normal" }

def c6Fas : List FileAnalysisHandoff :=
  [plainFA ("pkg/a.py"), plainFA ("pkg/b.py"), plainFA ("pkg/c.py")]

def c6RootFas : List FileAnalysisHandoff :=
  [plainFA ("a.py"), plainFA ("b.py")]

def c8Secs : SynthesisSections :=
  { repo_name := "repo", overview := "overview text",
    architecture := .mk ("Architecture") ("arch text") [],
    modules := [.mk ("core") ("core text") []],
    api_reference := .mk ("API Reference") ("api text") [],
    getting_started := .mk ("Getting Started") ("gs text") [] }

def c8Env : PhaseOutcomes Unit Unit Unit :=
  { discovery := Except.ok (), file_analysis := Except.ok (),
    module_analysis := Except.ok (), synthesis := Except.ok c8Secs,
    example_generation := Except.error ("example generation failed"),
    faq_generation := Except.ok [] }

def c10SelfFas : List FileAnalysisHandoff :=
  [{ plainFA ("pkg/util.py") with
      imports := [{ module := "pkg.util", names := [], is_relative := false,
                    is_external := false }] }]

def c10SelfEdge : DependencyEdge :=
  { source := "pkg/util.py", target := "pkg/util.py",
    relationship_type := "imports", strength := "normal" }

def c10ExtFas : List FileAnalysisHandoff :=
  [{ plainFA ("c/child.py") with
      classes := [{ name := "Child", line_number := 1, base_classes := ["Base"],
                    description := "Class Child", methods := [], attributes := [] }] },
   { plainFA ("d/base.py") with
      classes := [{ name := "Base", line_number := 1, base_classes := [],
                    description := "Class Base", methods := [], attributes := [] }] }]

def c10ExtEdge : DependencyEdge :=
  { source := "c/child.py", target := "d/base.py",
    relationship_type := "extends", strength := "strong" }

/-! ## Claim theorems -/

/-- C1: for every list of N tasks and every concurrency cap C >= 1,
`SubagentCoordinator.run_parallel` returns exactly N `SubagentResult`s, in the
same order as the input task list, regardless of completion order (`gather`
stores results positionally, embedded in `runParallelFrom`) and regardless of
which tasks fail; slot i depends only on task i and its own behaviour, so an
individual failure is captured in its own result, never raises out of
`run_parallel`, and never removes a sibling's result. -/
theorem claim_C1 {α : Type} (c : SubagentCoordinator) (_hcap : 1 ≤ c.max_concurrent)
    (tasks : List SubagentTask) (beh : Nat → TaskRunBeh α) :
    (c.run_parallel tasks beh).length = tasks.length ∧
    (∀ i : Nat, (c.run_parallel tasks beh).get? i
        = (tasks.get? i).map fun t => gatherSlot c t (beh i)) ∧
    (∀ (i : Nat) (t : SubagentTask), tasks.get? i = some t →
      ∃ r, (c.run_parallel tasks beh).get? i = some r ∧ r.task_name = t.name) := by
  refine ⟨runParallelFrom_length c beh 0 tasks, fun i => ?_, fun i t ht => ?_⟩
  · simpa [SubagentCoordinator.run_parallel] using runParallelFrom_get c beh tasks 0 i
  · refine ⟨gatherSlot c t (beh i), ?_, gatherSlot_name c t (beh i)⟩
    have h := runParallelFrom_get c beh tasks 0 i
    rw [SubagentCoordinator.run_parallel, h, ht]
    simp

/-- Witness for C1 at a concrete two-task batch under cap 2 whose first task
fails: the first slot still holds a result named after the first task. -/
theorem claim_C1_witness :
    (1 ≤ ({ max_concurrent := 2 } : SubagentCoordinator).max_concurrent) ∧
    (∃ r, (({ max_concurrent := 2 } : SubagentCoordinator).run_parallel c1Tasks
        c1Beh).get? 0 = some r ∧ r.task_name = "explore_a") :=
  ⟨by decide,
   (claim_C1 { max_concurrent := 2 } (by decide) c1Tasks c1Beh).2.2 0
     { name := "explore_a", prompt := "p1", model := "m", api_key := "k" } rfl⟩

/-- C2: in every state reachable from a fresh coordinator's semaphore state,
the number of `run_task` bodies past the semaphore never exceeds the
configured `max_concurrent` cap. -/
theorem claim_C2 (c : SubagentCoordinator) (s : SemState)
    (h : SemReach c.initSemState s) : s.running ≤ c.max_concurrent := by
  have hsum := semReach_sum c s h
  omega

/-- Witness for C2 at the state reached after one acquisition under cap 5. -/
theorem claim_C2_witness :
    ({ available := 4, running := 1 } : SemState).running
      ≤ ({ max_concurrent := 5 } : SubagentCoordinator).max_concurrent :=
  claim_C2 { max_concurrent := 5 } { available := 4, running := 1 }
    (SemReach.step SemReach.refl (SemStep.acquire _ (by decide)))

/-- C3 counterexample: when the runner succeeds with a `None` final output,
`run_task` returns `success = true` with `output = None` (and `error = None`),
so "output is present iff success" fails and neither of output/error is
populated. -/
theorem claim_C3_counterexample :
    ¬ (((({ max_concurrent := 5 } : SubagentCoordinator).run_task c3Task
          (Except.ok (none : Option String))).output ≠ none)
        ↔ ((({ max_concurrent := 5 } : SubagentCoordinator).run_task c3Task
          (Except.ok (none : Option String))).success = true)) := by
  decide

/-- C3 as amended: the error description is populated iff success is false;
output is `None` whenever success is false; and on a provider success whose
final output is non-`None`, the result is a success carrying exactly that
output with no error. -/
theorem claim_C3 {α : Type} (c : SubagentCoordinator) (t : SubagentTask)
    (b : Except String (Option α)) :
    ((c.run_task t b).error ≠ none ↔ (c.run_task t b).success = false) ∧
    ((c.run_task t b).success = false → (c.run_task t b).output = none) ∧
    (∀ o : α, b = Except.ok (some o) →
      (c.run_task t b).success = true ∧ (c.run_task t b).output = some o ∧
        (c.run_task t b).error = none) := by
  cases b with
  | ok o =>
    refine ⟨by simp [SubagentCoordinator.run_task],
            by simp [SubagentCoordinator.run_task], ?_⟩
    intro o' ho
    cases ho
    simp [SubagentCoordinator.run_task]
  | error e =>
    refine ⟨by simp [SubagentCoordinator.run_task],
            by simp [SubagentCoordinator.run_task], ?_⟩
    intro o' ho
    exact absurd ho (by simp)

/-- Witness for C3 (amended) at a concrete successful provider call. -/
theorem claim_C3_witness :
    (({ max_concurrent := 5 } : SubagentCoordinator).run_task c3Task
        (Except.ok (some ("done")))).success = true ∧
    (({ max_concurrent := 5 } : SubagentCoordinator).run_task c3Task
        (Except.ok (some ("done")))).output = some ("done") ∧
    (({ max_concurrent := 5 } : SubagentCoordinator).run_task c3Task
        (Except.ok (some ("done")))).error = none :=
  (claim_C3 { max_concurrent := 5 } c3Task (Except.ok (some ("done")))).2.2
    ("done") rfl

/-- C4: `analyze_file_locally` is total (the Lean embedding is a function on
all inputs, including empty content and unrecognized languages), and its
complexity score always lies in `[1, 10]` and equals the specification's
formula evaluated at the returned record's own class, function and import
counts and the line count of the content. -/
theorem claim_C4 (file_path content language : String) :
    1 ≤ (analyze_file_locally file_path content language).complexity_score ∧
    (analyze_file_locally file_path content language).complexity_score ≤ 10 ∧
    (analyze_file_locally file_path content language).complexity_score
      = specComplexityFormula
          (analyze_file_locally file_path content language).classes.length
          (analyze_file_locally file_path content language).functions.length
          (analyze_file_locally file_path content language).imports.length
          (pySplitLines content).length := by
  unfold analyze_file_locally
  dsimp only
  exact ⟨computeComplexityScore_ge_one _ _ _ _, computeComplexityScore_le_ten _ _ _ _,
    computeComplexityScore_eq_spec _ _ _ _⟩

/-- C5: every edge returned by `build_dependency_graph` has its source and its
target among the paths of the input `FileAnalysisHandoff` set; unresolvable
targets yield no edge at all. -/
theorem claim_C5 (fas : List FileAnalysisHandoff) (e : DependencyEdge)
    (h : e ∈ build_dependency_graph fas) :
    e.source ∈ fas.map (fun a => a.path) ∧ e.target ∈ fas.map (fun a => a.path) := by
  rw [bdg_eq_spec, dependencyGraphSpec] at h
  rcases List.mem_flatMap.mp h with ⟨a, ha, hmem⟩
  rcases List.mem_append.mp hmem with himp | hext
  · rcases List.mem_filterMap.mp himp with ⟨imp, _hi, heq⟩
    by_cases hc : (imp.is_relative || !imp.is_external) = true
    · rw [if_pos hc] at heq
      rcases Option.map_eq_some'.mp heq with ⟨p, hp, hpe⟩
      have hpmem : p ∈ filePathKeys fas := List.mem_of_find?_eq_some hp
      subst hpe
      exact ⟨List.mem_map.mpr ⟨a, ha, rfl⟩, mem_filePathKeys fas hpmem⟩
    · rw [if_neg hc] at heq
      exact absurd heq (by simp)
  · rw [extendsEdgesSpec] at hext
    rcases List.mem_flatMap.mp hext with ⟨cls, _hcls, h2⟩
    rcases List.mem_flatMap.mp h2 with ⟨base, _hb, h3⟩
    rcases List.mem_flatMap.mp h3 with ⟨other, hother, h4⟩
    by_cases hp : other.path = a.path
    · rw [if_pos hp] at h4
      exact absurd h4 (List.not_mem_nil e)
    · rw [if_neg hp] at h4
      rcases List.mem_filterMap.mp h4 with ⟨oc, _hoc, heq⟩
      by_cases hn : oc.name = base
      · rw [if_pos hn] at heq
        have he := Option.some.inj heq
        subst he
        exact ⟨List.mem_map.mpr ⟨a, ha, rfl⟩, List.mem_map.mpr ⟨other, hother, rfl⟩⟩
      · rw [if_neg hn] at heq
        exact absurd heq (by simp)

/-- Witness for C5 at a two-file batch with one resolvable relative import. -/
theorem claim_C5_witness :
    c5Edge ∈ build_dependency_graph c5Fas ∧
    (c5Edge.source ∈ c5Fas.map (fun a => a.path) ∧
      c5Edge.target ∈ c5Fas.map (fun a => a.path)) :=
  ⟨by decide, claim_C5 c5Fas c5Edge (by decide)⟩

/-- C6: a root directory group with fewer than 3 files yields no `ModuleInfo`
for the root path, and any directory group with exactly 3 member files yields
exactly one `ModuleInfo` for its path. -/
theorem claim_C6 (fas : List FileAnalysisHandoff) (repository_path d : String)
    (fs : List FileAnalysisHandoff) (hmem : (d, fs) ∈ groupByDir fas) :
    ((d = "." ∧ fs.length < 3) →
      ((identify_modules fas repository_path).filter fun m => m.path = d).length = 0) ∧
    (fs.length = 3 →
      ((identify_modules fas repository_path).filter fun m => m.path = d).length = 1) := by
  have hc := modulesFilter_path_count d fs (groupByDir fas)
    (groupByDir_keys_nodup fas) hmem
  rw [identify_modules]
  constructor
  · intro hskip
    rw [hc, if_pos hskip]
  · intro h3
    rw [hc, if_neg (fun hcontra => by omega)]

/-- Witness for C6: a directory with exactly 3 files yields exactly one
module; a root group with exactly 2 files yields none. -/
theorem claim_C6_witness :
    ((("pkg", [plainFA ("pkg/a.py"), plainFA ("pkg/b.py"), plainFA ("pkg/c.py")])
        ∈ groupByDir c6Fas) ∧
      ((identify_modules c6Fas ("/repo")).filter fun m => m.path = "pkg").length = 1) ∧
    (((".", [plainFA ("a.py"), plainFA ("b.py")]) ∈ groupByDir c6RootFas) ∧
      ((identify_modules c6RootFas ("/repo")).filter fun m => m.path = ".").length = 0) :=
  ⟨⟨by decide,
    (claim_C6 c6Fas ("/repo") ("pkg")
      [plainFA ("pkg/a.py"), plainFA ("pkg/b.py"), plainFA ("pkg/c.py")]
      (by decide)).2 rfl⟩,
   ⟨by decide,
    (claim_C6 c6RootFas ("/repo") (".")
      [plainFA ("a.py"), plainFA ("b.py")]
      (by decide)).1 ⟨rfl, by decide⟩⟩⟩

/-- C7: `build_dependency_graph` coincides with its specification-side
formulation: per relative-or-internal import, at most one "imports"/"normal"
edge, to the first matching file in the insertion-order key list
(`List.find?`), scanning stopped at that match; per declared base-class name,
one "extends"/"strong" edge for every matching class across all other files. -/
theorem claim_C7 (fas : List FileAnalysisHandoff) :
    build_dependency_graph fas = dependencyGraphSpec fas :=
  bdg_eq_spec fas

/-- C8: when the load-bearing phases succeed and the Examples phase fails, the
pipeline still reaches Done; the produced document is exactly the synthesis
output, whose examples list is the empty list substituted by
`run_doc_synthesis`. -/
theorem claim_C8 {δ φ μ : Type} (env : PhaseOutcomes δ φ μ) (d : δ) (fa : φ)
    (ma : μ) (secs : SynthesisSections) (err : String)
    (hd : env.discovery = Except.ok d) (hf : env.file_analysis = Except.ok fa)
    (hm : env.module_analysis = Except.ok ma)
    (hs : env.synthesis = Except.ok secs)
    (he : env.example_generation = Except.error err) :
    orchestratorRun env = Except.ok (run_doc_synthesis_assemble secs) ∧
    (run_doc_synthesis_assemble secs).examples = [] := by
  constructor
  · rw [orchestratorRun, hd, hf, hm, hs, he]
  · rfl

/-- Witness for C8 at a concrete environment whose Examples phase fails. -/
theorem claim_C8_witness :
    orchestratorRun c8Env = Except.ok (run_doc_synthesis_assemble c8Secs) ∧
    (run_doc_synthesis_assemble c8Secs).examples = [] :=
  claim_C8 c8Env () () () c8Secs ("example generation failed")
    rfl rfl rfl rfl rfl

/-- C9: for Python input the exports list is exactly the class names (with or
without a leading underscore) followed by the non-underscore top-level
function names; concretely, a private top-level function appears in the
functions list but not in exports, while a private class does appear in
exports. -/
theorem claim_C9 (file_path content : String) :
    ((analyze_file_locally file_path content ("python")).exports
      = (analyze_file_locally file_path content ("python")).classes.map
          (fun c => c.name)
        ++ (((analyze_file_locally file_path content ("python")).functions.map
              fun f => f.name).filter fun n => !pyStartsWith n ("_"))) ∧
    ("_helper" ∈ (analyze_file_locally ("f.py") ("def _helper():")
        ("python")).functions.map fun f => f.name) ∧
    ("_helper" ∉ (analyze_file_locally ("f.py") ("def _helper():")
        ("python")).exports) ∧
    ("_Cls" ∈ (analyze_file_locally ("f.py") ("class _Cls:")
        ("python")).exports) := by
  refine ⟨?_, by decide, by decide, by decide⟩
  unfold analyze_file_locally
  dsimp only
  rw [if_pos rfl]
  exact extractPython_exports (pySplitLines content)

/-- C10: every "extends" edge has source different from target (the source
skips the importing file itself when scanning for base classes), while
"imports" edges may resolve to the importing file itself, witnessed by a
self-import producing a self-edge. -/
theorem claim_C10 :
    (∀ (fas : List FileAnalysisHandoff) (e : DependencyEdge),
        e ∈ build_dependency_graph fas → e.relationship_type = "extends" →
          e.source ≠ e.target) ∧
    (c10SelfEdge ∈ build_dependency_graph c10SelfFas ∧
      c10SelfEdge.relationship_type = "imports" ∧
      c10SelfEdge.source = c10SelfEdge.target) := by
  constructor
  · intro fas e he hrel
    rw [bdg_eq_spec, dependencyGraphSpec] at he
    rcases List.mem_flatMap.mp he with ⟨a, _ha, hmem⟩
    rcases List.mem_append.mp hmem with himp | hext
    · rcases List.mem_filterMap.mp himp with ⟨imp, _hi, heq⟩
      by_cases hc : (imp.is_relative || !imp.is_external) = true
      · rw [if_pos hc] at heq
        rcases Option.map_eq_some'.mp heq with ⟨p, _hp, hpe⟩
        subst hpe
        simp at hrel
      · rw [if_neg hc] at heq
        exact absurd heq (by simp)
    · rw [extendsEdgesSpec] at hext
      rcases List.mem_flatMap.mp hext with ⟨cls, _hcls, h2⟩
      rcases List.mem_flatMap.mp h2 with ⟨base, _hb, h3⟩
      rcases List.mem_flatMap.mp h3 with ⟨other, _hother, h4⟩
      by_cases hp : other.path = a.path
      · rw [if_pos hp] at h4
        exact absurd h4 (List.not_mem_nil e)
      · rw [if_neg hp] at h4
        rcases List.mem_filterMap.mp h4 with ⟨oc, _hoc, heq⟩
        by_cases hn : oc.name = base
        · rw [if_pos hn] at heq
          have he2 := Option.some.inj heq
          subst he2
          intro hcontra
          exact hp hcontra.symm
        · rw [if_neg hn] at heq
          exact absurd heq (by simp)
  · exact ⟨by decide, by decide, by decide⟩

/-- Witness for C10's universal part at a concrete inheritance pair. -/
theorem claim_C10_witness : c10ExtEdge.source ≠ c10ExtEdge.target :=
  claim_C10.1 c10ExtFas c10ExtEdge (by decide) rfl
